import Mathlib

/-!
Verification of the subsonic-tui playback engine specification against a
shallow embedding of the repository's Rust source.

Embedded components:
* `Song`, `PlayerState`, `RepeatMode` — `src/client/models.rs`, `src/action.rs`
* `QueueState` and its operations — `src/ui/components/queue.rs`
* `NowPlayingState` (scrobble logic) — `src/ui/components/now_playing.rs`
* The playback actor loop body — `run_player_thread` in `src/player/backend.rs`
* `linear_to_log_volume` — `src/player/backend.rs` (f32 arithmetic modelled
  over the reals)
* `App.handle_track_ended`, `App.move_queue_item` — `src/app.rs`
* `sync_mpris_state` and the MPRIS command loop — `src/main.rs`, `src/mpris.rs`

Machine integers are modelled as `Nat`/`Int`; Rust `as` casts that can wrap
are written with an explicit `% 2 ^ w`.  Rust `Option`/`Result` become
`Option`/`Except`.  External collaborators (the network fetch, the symphonia
decoder, the rodio sink, the wall clock, the shuffle RNG) enter as explicit
environment parameters, so the embedded functions stay pure and executable.
-/

namespace SubsonicTui

/-- Track metadata, from `Song` in `src/client/models.rs`.  Only the fields the
playback engine reads are embedded (`id`, `title`, `artist`, `album`,
`cover_art`, `duration`); the remaining fields of the Rust struct are inert
metadata never consulted by the code under verification.  `duration` keeps the
source's `Option<i32>` as `Option Int`. -/
structure Song where
  id : String
  title : String
  artist : Option String := none
  album : Option String := none
  cover_art : Option String := none
  duration : Option Int := none
  deriving DecidableEq, Repr

/-- Embeds `PlayerState` from `src/action.rs`. -/
inductive PlayerState where
  | Stopped
  | Playing
  | Paused
  | Buffering
  deriving DecidableEq, Repr

/-- Embeds `RepeatMode` from `src/action.rs`. -/
inductive RepeatMode where
  | Off
  | All
  | One
  deriving DecidableEq, Repr

/-- Queue state, from `QueueState` in `src/ui/components/queue.rs`.
`selected` embeds `list_state.selected()` (the ratatui `ListState` keeps only
the selected index as far as the queue logic is concerned); the `visible` flag
is pure UI and never read by the operations under verification, so it is
omitted. -/
structure QueueState where
  songs : List Song := []
  current_index : Option Nat := none
  selected : Option Nat := none
  deriving DecidableEq, Repr

namespace QueueState

/-- Embeds `QueueState::add`. -/
def add (q : QueueState) (song : Song) : QueueState :=
  { q with songs := q.songs ++ [song] }

/-- Embeds `QueueState::add_all`. -/
def add_all (q : QueueState) (songs : List Song) : QueueState :=
  { q with songs := q.songs ++ songs }

/-- Embeds `QueueState::clear`. -/
def clear (q : QueueState) : QueueState :=
  { q with songs := [], current_index := none, selected := none }

/-- Embeds `QueueState::remove`.  Mirrors the source: the removal happens only when
`index < songs.len()`; the cursor is decremented when the removed index is
strictly below it and cleared when it equals it; the selection is clamped to
the new last element (or cleared when the queue empties). -/
def remove (q : QueueState) (index : Nat) : QueueState :=
  if index < q.songs.length then
    let songs' := q.songs.eraseIdx index
    let current' :=
      match q.current_index with
      | some current =>
        if index < current then some (current - 1)
        else if index = current then none
        else some current
      | none => none
    let selected' :=
      if songs'.length = 0 then none
      else
        match q.selected with
        | some sel => if songs'.length ≤ sel then some (songs'.length - 1) else some sel
        | none => none
    { q with songs := songs', current_index := current', selected := selected' }
  else q

/-- Embeds `QueueState::current_song`. -/
def current_song (q : QueueState) : Option Song :=
  q.current_index.bind (fun i => q.songs[i]?)

/-- Embeds `QueueState::next_song`. -/
def next_song (q : QueueState) : Option (Nat × Song) :=
  match q.current_index with
  | some i =>
    if h : i + 1 < q.songs.length then some (i + 1, q.songs.get ⟨i + 1, h⟩)
    else none
  | none =>
    if h : q.songs.length ≠ 0 then
      some (0, q.songs.get ⟨0, Nat.pos_of_ne_zero h⟩)
    else none

/-- Embeds `QueueState::previous_song`. -/
def previous_song (q : QueueState) : Option (Nat × Song) :=
  match q.current_index with
  | some i =>
    if h : 0 < i ∧ i - 1 < q.songs.length then
      some (i - 1, q.songs.get ⟨i - 1, h.2⟩)
    else none
  | none => none

/-- Embeds `QueueState::advance`: move the cursor to the next song (when one exists)
and return the new current song. -/
def advance (q : QueueState) : QueueState × Option Song :=
  match q.next_song with
  | some (i, _) =>
    let q' := { q with current_index := some i }
    (q', q'.current_song)
  | none => (q, none)

/-- Embeds `QueueState::go_back`: move the cursor to the previous song (when one
exists) and return the new current song. -/
def go_back (q : QueueState) : QueueState × Option Song :=
  match q.previous_song with
  | some (i, _) =>
    let q' := { q with current_index := some i }
    (q', q'.current_song)
  | none => (q, none)

/-- Embeds `QueueState::play_index`. -/
def play_index (q : QueueState) (index : Nat) : QueueState × Option Song :=
  if index < q.songs.length then
    let q' := { q with current_index := some index }
    (q', q'.current_song)
  else (q, none)

/-- Embeds `QueueState::shuffle`.  The RNG-driven `SliceRandom::shuffle` of the
rest of the list is abstracted as the environment-supplied reordering `perm`;
the shape of the source is kept: queues of length ≤ 1 are untouched, with a
cursor the current song is removed, the rest reshuffled, the current song
reinserted at the front and the cursor reset to 0, without a cursor the whole
list is reshuffled.  (`Vec::remove` would panic on an out-of-range cursor;
that case cannot arise under the cursor invariant and is embedded as a
no-op.) -/
def shuffle (q : QueueState) (perm : List Song → List Song) : QueueState :=
  if q.songs.length ≤ 1 then q
  else
    match q.current_index with
    | some current_idx =>
      match q.songs[current_idx]? with
      | some current =>
        { q with songs := current :: perm (q.songs.eraseIdx current_idx),
                 current_index := some 0 }
      | none => q
    | none => { q with songs := perm q.songs }

/-- The queue cursor invariant: `current_index` is `none` or a valid index. -/
def cursorOk (q : QueueState) : Bool :=
  match q.current_index with
  | none => true
  | some i => i < q.songs.length

end QueueState

/-- Now-playing state, from `NowPlayingState` in
`src/ui/components/now_playing.rs`.  `position` and `duration` are the `u32`
second counters; the album-art image payload and the terminal-graphics picker
are pure rendering state and are embedded only through `album_art_id` (which
`set_song` reads and writes). -/
structure NowPlayingState where
  current_song : Option Song := none
  state : PlayerState := PlayerState.Stopped
  position : Nat := 0
  duration : Nat := 0
  volume : Nat := 80
  shuffle : Bool := false
  repeat_mode : RepeatMode := RepeatMode.Off
  album_art_id : Option String := none
  scrobbled : Bool := false
  deriving DecidableEq, Repr

namespace NowPlayingState

/-- Embeds `NowPlayingState::set_song`.  The Rust `song.duration.unwrap_or(0) as u32`
cast from `i32` wraps, hence the explicit `% 2 ^ 32` on the integer value. -/
def set_song (np : NowPlayingState) (song : Song) : NowPlayingState :=
  let new_art_id := song.cover_art
  { np with
    duration := ((song.duration.getD 0) % (2 ^ 32 : Int)).toNat
    position := 0
    scrobbled := false
    album_art_id := new_art_id
    current_song := some song }

/-- Embeds `NowPlayingState::should_scrobble`: played more than 50% or more than
4 minutes, with a hard floor of strictly more than 30 seconds, and at most
once per track.  `duration / 2` is the `u32` integer division of the
source. -/
def should_scrobble (np : NowPlayingState) : Bool :=
  if np.scrobbled then false
  else
    let half_duration := np.duration / 2
    let four_minutes := 240
    decide (min half_duration four_minutes ≤ np.position) && decide (30 < np.position)

/-- Embeds `NowPlayingState::mark_scrobbled`. -/
def mark_scrobbled (np : NowPlayingState) : NowPlayingState :=
  { np with scrobbled := true }

end NowPlayingState

/-- The slice of `App` (`src/app.rs`) read and written by the playback
orchestration under verification: the queue, the now-playing state, and
whether the player/client pair exists (`self.player`/`self.client` are
`Option`s in the source and `play_song` is a no-op when either is absent). -/
structure AppModel where
  queue : QueueState := {}
  now_playing : NowPlayingState := {}
  has_player : Bool := true
  deriving DecidableEq, Repr

namespace AppModel

/-- Embeds `App::play_song`: when the player and client are present, update the
now-playing state with the song and hand the song to the player thread
(returned as the second component; the stream URL is a pure function of the
song id and carries no extra information).  The album-art/lyrics channel
sends are fire-and-forget UI actions with no effect on the playback state. -/
def play_song (app : AppModel) (song : Song) : AppModel × Option Song :=
  if app.has_player then
    ({ app with now_playing := app.now_playing.set_song song }, some song)
  else (app, none)

/-- Embeds `App::handle_track_ended`: the repeat-mode decision table executed when a
`TrackEnded` event arrives.  Returns the updated app state and the song (if
any) sent to the player. -/
def handle_track_ended (app : AppModel) : AppModel × Option Song :=
  match app.now_playing.repeat_mode with
  | RepeatMode.One =>
    match app.queue.current_song with
    | some song => app.play_song song
    | none => (app, none)
  | RepeatMode.All =>
    let (q', advanced) := app.queue.advance
    let app := { app with queue := q' }
    match advanced with
    | none =>
      let (q'', played) := app.queue.play_index 0
      let app := { app with queue := q'' }
      match played with
      | some song => app.play_song song
      | none => (app, none)
    | some _ =>
      match app.queue.current_song with
      | some song => app.play_song song
      | none => (app, none)
  | RepeatMode.Off =>
    let (q', advanced) := app.queue.advance
    let app := { app with queue := q' }
    match advanced with
    | some song => app.play_song song
    | none =>
      ({ app with now_playing := { app.now_playing with state := PlayerState.Stopped } }, none)

/-- Embeds `App::move_queue_item`.  `index` is a `usize`, `direction` an `isize`;
the Rust `saturating_sub` is `Nat` subtraction and `len.saturating_sub(1)`
is `songs.length - 1`. -/
def move_queue_item (app : AppModel) (index : Nat) (direction : Int) : AppModel :=
  let q := app.queue
  let new_index :=
    if direction < 0 then index - (-direction).toNat
    else min (index + direction.toNat) (q.songs.length - 1)
  if new_index ≠ index ∧ index < q.songs.length then
    match q.songs[index]? with
    | some song =>
      let songs' := (q.songs.eraseIdx index).insertIdx new_index song
      let current' :=
        match q.current_index with
        | some current =>
          if current = index then some new_index
          else if direction < 0 ∧ new_index ≤ current ∧ current < index then
            some (current + 1)
          else if 0 < direction ∧ index < current ∧ current ≤ new_index then
            some (current - 1)
          else some current
        | none => none
      { app with queue :=
          { q with songs := songs', current_index := current', selected := some new_index } }
    | none => app
  else app

end AppModel

/-- Embeds `PlayerCommand` from `src/player/backend.rs`.  `SetVolume` carries the
`f32` linear volume (modelled as a rational); `Seek` carries a `Duration`
(modelled in milliseconds). -/
inductive PlayerCommand where
  | Play (url : String) (song : Song)
  | Pause
  | Resume
  | Stop
  | SetVolume (volume : ℚ)
  | Seek (position_ms : Nat)

/-- Embeds `PlayerEvent` from `src/player/backend.rs` (durations in milliseconds). -/
inductive PlayerEvent where
  | StateChanged (state : PlayerState)
  | Progress (position_ms : Nat) (duration_ms : Nat)
  | TrackEnded
  | Error (message : String)
  deriving DecidableEq, Repr

/-- The rodio `Sink` as the actor observes it: whether any appended source is
still queued (`Sink::empty()` is its negation) and whether the sink is
paused.  A freshly created sink (`Sink::try_new`) is empty and unpaused. -/
structure SinkModel where
  has_source : Bool := false
  paused : Bool := false
  deriving DecidableEq, Repr

/-- The playback actor's per-thread state in `run_player_thread`
(`src/player/backend.rs`): the locals `current_duration`,
`current_audio_data`, `current_volume`, `is_seeking`, `last_tick_time`
(embedded as the flag `has_tick_ref`, the wall-clock value itself being
environment data), the sink behind the mutex, and the cross-thread
`PlayerStateShared` counters `is_playing`, `position_ms`, `duration_ms`. -/
structure ActorState where
  sink : SinkModel := {}
  current_duration_ms : Option Nat := none
  current_audio_data : Option (List Nat) := none
  current_volume : ℚ := 8 / 10
  is_seeking : Bool := false
  has_tick_ref : Bool := false
  is_playing : Bool := false
  position_ms : Nat := 0
  duration_ms : Nat := 0
  deriving DecidableEq, Repr

/-- The actor's environment for one loop iteration: the blocking
`fetch_audio_data` call, the fallible symphonia source construction/seek
inside `play_audio_data` (probe + decoder + container seek), and the wall
clock elapsed since the last tick reference. -/
structure PlayerEnv where
  fetch : String → Except String (List Nat)
  decode : List Nat → Nat → Except String Unit
  elapsed_ms : Nat := 100

/-- Embeds `play_audio_data` (`src/player/backend.rs`): build a `SymphoniaSource`
from the buffered bytes, seek it when a nonzero target is given (both
fallible, supplied by `env.decode`), then append it to the sink, set the
device gain to `linear_to_log_volume(volume)` and start playback.  The gain
value lives on the audio device and is not part of the observable actor
state; the volume curve itself is verified separately. -/
def play_audio_data (env : PlayerEnv) (audio_data : List Nat) (seek_to_ms : Nat) :
    Except String SinkModel :=
  match env.decode audio_data seek_to_ms with
  | Except.error e => Except.error e
  | Except.ok _ => Except.ok { has_source := true, paused := false }

/-- One iteration of the actor loop in `run_player_thread`
(`src/player/backend.rs`): process at most one command from the non-blocking
`try_recv` (`cmd = none` embeds `TryRecvError::Empty`), then run the
end-of-track check, clear the seek guard, and run the wall-clock progress
update.  Returns the new state and the events emitted this iteration, in
emission order.  Rust `u64` arithmetic wraps, hence the `% 2 ^ 64`. -/
def run_player_thread_step (env : PlayerEnv) (cmd : Option PlayerCommand)
    (st : ActorState) : ActorState × List PlayerEvent :=
  let command_result : ActorState × List PlayerEvent :=
    match cmd with
    | none => (st, [])
    | some (PlayerCommand.Play url song) =>
      let st := { st with sink := {} }
      let current_duration :=
        song.duration.map (fun d => (((d % (2 ^ 64 : Int)).toNat * 1000) % 2 ^ 64))
      let st := { st with current_duration_ms := current_duration }
      let st :=
        match current_duration with
        | some dur => { st with duration_ms := dur }
        | none => st
      match env.fetch url with
      | Except.ok audio_data =>
        let st := { st with current_audio_data := some audio_data }
        match play_audio_data env audio_data 0 with
        | Except.error e => (st, [PlayerEvent.Error e])
        | Except.ok sink' =>
          ({ st with sink := sink', is_playing := true, position_ms := 0,
                     has_tick_ref := true },
           [PlayerEvent.StateChanged PlayerState.Playing])
      | Except.error e => (st, [PlayerEvent.Error e])
    | some PlayerCommand.Pause =>
      ({ st with sink := { st.sink with paused := true }, is_playing := false,
                 has_tick_ref := false },
       [PlayerEvent.StateChanged PlayerState.Paused])
    | some PlayerCommand.Resume =>
      ({ st with sink := { st.sink with paused := false }, is_playing := true,
                 has_tick_ref := true },
       [PlayerEvent.StateChanged PlayerState.Playing])
    | some PlayerCommand.Stop =>
      ({ st with sink := {}, current_audio_data := none, is_playing := false,
                 position_ms := 0, has_tick_ref := false },
       [PlayerEvent.StateChanged PlayerState.Stopped])
    | some (PlayerCommand.SetVolume v) =>
      ({ st with current_volume := v }, [])
    | some (PlayerCommand.Seek position_ms) =>
      match st.current_audio_data with
      | some audio_data =>
        let was_playing := st.is_playing
        let st := { st with is_seeking := true, sink := {} }
        match play_audio_data env audio_data position_ms with
        | Except.error e => (st, [PlayerEvent.Error ("Seek failed: " ++ e)])
        | Except.ok sink' =>
          let st := { st with sink := sink', position_ms := position_ms % 2 ^ 64 }
          if was_playing then
            ({ st with is_playing := true, has_tick_ref := true }, [])
          else
            ({ st with sink := { sink' with paused := true }, is_playing := false,
                       has_tick_ref := false },
             [PlayerEvent.StateChanged PlayerState.Paused])
      | none => (st, [])
  let st := command_result.1
  let events := command_result.2
  let ended_result : ActorState × List PlayerEvent :=
    if !st.is_seeking && !st.sink.has_source && st.is_playing then
      ({ st with is_playing := false }, events ++ [PlayerEvent.TrackEnded])
    else (st, events)
  let st := { ended_result.1 with is_seeking := false }
  let events := ended_result.2
  if st.is_playing then
    if st.has_tick_ref then
      let new_pos := (st.position_ms + env.elapsed_ms) % 2 ^ 64
      let st := { st with position_ms := new_pos }
      match st.current_duration_ms with
      | some dur => (st, events ++ [PlayerEvent.Progress new_pos dur])
      | none => (st, events)
    else
      ({ st with has_tick_ref := true }, events)
  else (st, events)

/-- Embeds `linear_to_log_volume` (`src/player/backend.rs`), with the `f32`
arithmetic idealised over the reals: clamp at the ends of [0, 1], apply the
perceptual curve `amplitude = volume ^ 2.5` strictly inside. -/
noncomputable def linear_to_log_volume (linear : ℝ) : ℝ :=
  if linear ≤ 0 then 0
  else if 1 ≤ linear then 1
  else linear ^ (2.5 : ℝ)

/-- Embeds `mpris_server::PlaybackStatus` as the bridge publishes it. -/
inductive PlaybackStatus where
  | Playing
  | Paused
  | Stopped
  deriving DecidableEq, Repr

/-- Embeds `mpris_server::LoopStatus`. -/
inductive LoopStatus where
  | None
  | Track
  | Playlist
  deriving DecidableEq, Repr

/-- Embeds `repeat_to_loop_status` (`src/mpris.rs`). -/
def repeat_to_loop_status : RepeatMode → LoopStatus
  | RepeatMode.Off => LoopStatus.None
  | RepeatMode.One => LoopStatus.Track
  | RepeatMode.All => LoopStatus.Playlist

/-- Embeds `MprisCommand` (`src/mpris.rs`): the outbound "set X" commands the app
sends to the bridge thread.  Durations are in milliseconds and the `f64`
volume is a rational. -/
inductive MprisCommand where
  | SetPlaybackStatus (status : PlaybackStatus)
  | SetMetadata (track_id : String) (title : String) (artist : Option String)
      (album : Option String) (duration : Option Nat) (cover_art_url : Option String)
  | SetPosition (position_ms : Nat)
  | SetVolume (volume : ℚ)
  | SetLoopStatus (status : LoopStatus)
  | SetShuffle (shuffle : Bool)
  | Seeked (position_ms : Nat)
  | SetCanGoNext (can : Bool)
  | SetCanGoPrevious (can : Bool)
  | Shutdown
  deriving DecidableEq, Repr

/-- Embeds `MprisState` (`src/main.rs`): the last values synchronised to the bridge,
`Default`-initialised.  Note the struct has no fields for can-go-next,
can-go-previous or the seeked signal. -/
structure MprisState where
  track_id : Option String := none
  player_state : PlayerState := PlayerState.Stopped
  position : Nat := 0
  volume : Nat := 0
  shuffle : Bool := false
  repeat_mode : RepeatMode := RepeatMode.Off
  deriving DecidableEq, Repr

/-- Embeds the "Check if track changed" block of `sync_mpris_state`
(`src/main.rs`). -/
def sync_track_block (np : NowPlayingState) (state : MprisState) :
    MprisState × List MprisCommand :=
  let current_track_id := np.current_song.map (fun s => s.id)
  if current_track_id ≠ state.track_id then
    let state := { state with track_id := current_track_id }
    match np.current_song with
    | some song =>
      let duration := song.duration.map (fun d => (max d 0).toNat)
      (state,
       [MprisCommand.SetMetadata song.id song.title song.artist song.album duration none])
    | none => (state, [])
  else (state, [])

/-- Embeds the "Check if playback state changed" block of `sync_mpris_state`
(`src/main.rs`); `Buffering` is published as `Playing`. -/
def sync_status_block (np : NowPlayingState) (state : MprisState) :
    MprisState × List MprisCommand :=
  if np.state ≠ state.player_state then
    let status :=
      match np.state with
      | PlayerState.Playing => PlaybackStatus.Playing
      | PlayerState.Paused => PlaybackStatus.Paused
      | PlayerState.Stopped => PlaybackStatus.Stopped
      | PlayerState.Buffering => PlaybackStatus.Playing
    ({ state with player_state := np.state }, [MprisCommand.SetPlaybackStatus status])
  else (state, [])

/-- Embeds the "Update position" block of `sync_mpris_state` (`src/main.rs`). -/
def sync_position_block (np : NowPlayingState) (state : MprisState) :
    MprisState × List MprisCommand :=
  if np.position ≠ state.position then
    ({ state with position := np.position },
     [MprisCommand.SetPosition (np.position * 1000)])
  else (state, [])

/-- Embeds the "Check if volume changed" block of `sync_mpris_state`
(`src/main.rs`). -/
def sync_volume_block (np : NowPlayingState) (state : MprisState) :
    MprisState × List MprisCommand :=
  if np.volume ≠ state.volume then
    ({ state with volume := np.volume },
     [MprisCommand.SetVolume ((np.volume : ℚ) / 100)])
  else (state, [])

/-- Embeds the "Check if shuffle changed" block of `sync_mpris_state`
(`src/main.rs`). -/
def sync_shuffle_block (np : NowPlayingState) (state : MprisState) :
    MprisState × List MprisCommand :=
  if np.shuffle ≠ state.shuffle then
    ({ state with shuffle := np.shuffle }, [MprisCommand.SetShuffle np.shuffle])
  else (state, [])

/-- Embeds the "Check if repeat changed" block of `sync_mpris_state`
(`src/main.rs`). -/
def sync_loop_block (np : NowPlayingState) (state : MprisState) :
    MprisState × List MprisCommand :=
  if np.repeat_mode ≠ state.repeat_mode then
    ({ state with repeat_mode := np.repeat_mode },
     [MprisCommand.SetLoopStatus (repeat_to_loop_status np.repeat_mode)])
  else (state, [])

/-- Embeds `sync_mpris_state` (`src/main.rs`): called once per application
tick; runs the diffing blocks in source order, threading the remembered
state, then appends the unconditional can-go-next / can-go-previous sends.
Returns the updated remembered state and the commands sent to the bridge
thread, in send order. -/
def sync_mpris_state (app : AppModel) (state : MprisState) :
    MprisState × List MprisCommand :=
  let np := app.now_playing
  let r1 := sync_track_block np state
  let r2 := sync_status_block np r1.1
  let r3 := sync_position_block np r2.1
  let r4 := sync_volume_block np r3.1
  let r5 := sync_shuffle_block np r4.1
  let r6 := sync_loop_block np r5.1
  let can_go_next := !app.queue.songs.isEmpty
  let can_go_previous := !app.queue.songs.isEmpty
  (r6.1,
   r1.2 ++ r2.2 ++ r3.2 ++ r4.2 ++ r5.2 ++ r6.2 ++
     [MprisCommand.SetCanGoNext can_go_next,
      MprisCommand.SetCanGoPrevious can_go_previous])

/-- Discriminator classifying which diff block emitted a command. -/
def MprisCommand.kind : MprisCommand → Nat
  | MprisCommand.SetPlaybackStatus _ => 0
  | MprisCommand.SetMetadata _ _ _ _ _ _ => 1
  | MprisCommand.SetPosition _ => 2
  | MprisCommand.SetVolume _ => 3
  | MprisCommand.SetLoopStatus _ => 4
  | MprisCommand.SetShuffle _ => 5
  | MprisCommand.Seeked _ => 6
  | MprisCommand.SetCanGoNext _ => 7
  | MprisCommand.SetCanGoPrevious _ => 8
  | MprisCommand.Shutdown => 9

/-- The command loop of `run_mpris_thread` (`src/mpris.rs`, lines 286-351):
every received command except `Shutdown` is forwarded to exactly one
`player.set_*` / `player.seeked` call on the external transport, with no
comparison against previously published values; `Shutdown` (or a closed
channel) breaks the loop.  Returns the external publish calls made for a
received command sequence. -/
def run_mpris_commands : List MprisCommand → List MprisCommand
  | [] => []
  | MprisCommand.Shutdown :: _ => []
  | c :: rest => c :: run_mpris_commands rest

/-- Concrete sample track for witnesses and counterexamples. -/
def songA : Song := { id := "a", title := "a" }

/-- Concrete sample track for witnesses and counterexamples. -/
def songB : Song := { id := "b", title := "b" }

/-- Concrete sample track for witnesses and counterexamples. -/
def songC : Song := { id := "c", title := "c" }

/-- Concrete sample track for witnesses and counterexamples. -/
def songD : Song := { id := "d", title := "d" }

/-- Queue-editing operation alphabet for the cursor-invariant claim: the
mutating operations of `QueueState` (`src/ui/components/queue.rs`).
`shuffle` carries the RNG-chosen reordering as an explicit function. -/
inductive QueueOp where
  | add (song : Song)
  | add_all (songs : List Song)
  | remove (index : Nat)
  | clear
  | advance
  | go_back
  | play_index (index : Nat)
  | shuffle (perm : List Song → List Song)

/-- Applies one queue-editing operation. -/
def applyQueueOp (q : QueueState) : QueueOp → QueueState
  | QueueOp.add song => q.add song
  | QueueOp.add_all songs => q.add_all songs
  | QueueOp.remove index => q.remove index
  | QueueOp.clear => q.clear
  | QueueOp.advance => q.advance.1
  | QueueOp.go_back => q.go_back.1
  | QueueOp.play_index index => (q.play_index index).1
  | QueueOp.shuffle perm => q.shuffle perm

/-- Applies a sequence of queue-editing operations, oldest first. -/
def applyQueueOps (q : QueueState) (ops : List QueueOp) : QueueState :=
  ops.foldl applyQueueOp q

/-- Concrete app state for the C4 witness, repeat mode One. -/
def appOne : AppModel :=
  { queue := { songs := [songA], current_index := some 0 },
    now_playing := { repeat_mode := RepeatMode.One } }

/-- Concrete app state for the C4 witness, repeat mode All, cursor at end. -/
def appAll : AppModel :=
  { queue := { songs := [songA, songB], current_index := some 1 },
    now_playing := { repeat_mode := RepeatMode.All } }

/-- Concrete app state for the C4 witness, repeat mode Off, cursor at end. -/
def appOff : AppModel :=
  { queue := { songs := [songA, songB], current_index := some 1 },
    now_playing := { repeat_mode := RepeatMode.Off } }

/-- Concrete app state for the C7 counterexample: three tracks, cursor on the
first. -/
def appMove : AppModel :=
  { queue := { songs := [songA, songB, songC], current_index := some 0 } }

/-- Environment whose fetch and decode both succeed, for concrete actor
runs. -/
def envOk : PlayerEnv :=
  { fetch := fun _ => Except.ok [1, 2], decode := fun _ _ => Except.ok () }

/-- Environment whose fetch fails with a network error, for concrete actor
runs. -/
def envFetchFail : PlayerEnv :=
  { fetch := fun _ => Except.error "connection refused",
    decode := fun _ _ => Except.ok () }

/-- Concrete actor state: a loaded track is playing (non-empty sink, playing
flag set, wall-clock reference armed). -/
def stPlaying : ActorState :=
  { sink := { has_source := true }, current_audio_data := some [1],
    current_duration_ms := some 500000, duration_ms := 500000,
    is_playing := true, has_tick_ref := true }

/-- Concrete app state for the C8 counterexample: one queued track loaded
and playing, all fields stable across ticks. -/
def appMpris : AppModel :=
  { queue := { songs := [songA], current_index := some 0 },
    now_playing := { current_song := some songA, state := PlayerState.Playing,
                     position := 10, volume := 80, shuffle := false,
                     repeat_mode := RepeatMode.Off } }

/-! ## Theorems -/

theorem sync_track_block_cmds (np : NowPlayingState) (s : MprisState) :
    (np.current_song.map (fun x => x.id) = s.track_id →
      (sync_track_block np s).2 = []) ∧
    (∀ c ∈ (sync_track_block np s).2, MprisCommand.kind c = 1) ∧
    (sync_track_block np s).1.player_state = s.player_state ∧
    (sync_track_block np s).1.position = s.position ∧
    (sync_track_block np s).1.volume = s.volume ∧
    (sync_track_block np s).1.shuffle = s.shuffle ∧
    (sync_track_block np s).1.repeat_mode = s.repeat_mode := by
  unfold sync_track_block
  cases hc : np.current_song <;>
    by_cases ht : np.current_song.map (fun x => x.id) ≠ s.track_id <;>
      simp_all [MprisCommand.kind]

theorem sync_status_block_cmds (np : NowPlayingState) (s : MprisState) :
    (np.state = s.player_state → (sync_status_block np s).2 = []) ∧
    (∀ c ∈ (sync_status_block np s).2, MprisCommand.kind c = 0) ∧
    (sync_status_block np s).1.track_id = s.track_id ∧
    (sync_status_block np s).1.position = s.position ∧
    (sync_status_block np s).1.volume = s.volume ∧
    (sync_status_block np s).1.shuffle = s.shuffle ∧
    (sync_status_block np s).1.repeat_mode = s.repeat_mode := by
  unfold sync_status_block
  split <;> simp_all [MprisCommand.kind]

theorem sync_position_block_cmds (np : NowPlayingState) (s : MprisState) :
    (np.position = s.position → (sync_position_block np s).2 = []) ∧
    (∀ c ∈ (sync_position_block np s).2, MprisCommand.kind c = 2) ∧
    (sync_position_block np s).1.track_id = s.track_id ∧
    (sync_position_block np s).1.player_state = s.player_state ∧
    (sync_position_block np s).1.volume = s.volume ∧
    (sync_position_block np s).1.shuffle = s.shuffle ∧
    (sync_position_block np s).1.repeat_mode = s.repeat_mode := by
  unfold sync_position_block
  split <;> simp_all [MprisCommand.kind]

theorem sync_volume_block_cmds (np : NowPlayingState) (s : MprisState) :
    (np.volume = s.volume → (sync_volume_block np s).2 = []) ∧
    (∀ c ∈ (sync_volume_block np s).2, MprisCommand.kind c = 3) ∧
    (sync_volume_block np s).1.track_id = s.track_id ∧
    (sync_volume_block np s).1.player_state = s.player_state ∧
    (sync_volume_block np s).1.position = s.position ∧
    (sync_volume_block np s).1.shuffle = s.shuffle ∧
    (sync_volume_block np s).1.repeat_mode = s.repeat_mode := by
  unfold sync_volume_block
  split <;> simp_all [MprisCommand.kind]

theorem sync_shuffle_block_cmds (np : NowPlayingState) (s : MprisState) :
    (np.shuffle = s.shuffle → (sync_shuffle_block np s).2 = []) ∧
    (∀ c ∈ (sync_shuffle_block np s).2, MprisCommand.kind c = 5) ∧
    (sync_shuffle_block np s).1.track_id = s.track_id ∧
    (sync_shuffle_block np s).1.player_state = s.player_state ∧
    (sync_shuffle_block np s).1.position = s.position ∧
    (sync_shuffle_block np s).1.volume = s.volume ∧
    (sync_shuffle_block np s).1.repeat_mode = s.repeat_mode := by
  unfold sync_shuffle_block
  split <;> simp_all [MprisCommand.kind]

theorem sync_loop_block_cmds (np : NowPlayingState) (s : MprisState) :
    (np.repeat_mode = s.repeat_mode → (sync_loop_block np s).2 = []) ∧
    (∀ c ∈ (sync_loop_block np s).2, MprisCommand.kind c = 4) ∧
    (sync_loop_block np s).1.track_id = s.track_id ∧
    (sync_loop_block np s).1.player_state = s.player_state ∧
    (sync_loop_block np s).1.position = s.position ∧
    (sync_loop_block np s).1.volume = s.volume ∧
    (sync_loop_block np s).1.shuffle = s.shuffle := by
  unfold sync_loop_block
  split <;> simp_all [MprisCommand.kind]

/-- C9: the volume curve `linear_to_log_volume` maps 0 to exactly 0 and 1 to
exactly 1, clamps inputs at or beyond the domain ends, equals `v ^ 2.5` for
every input strictly between 0 and 1, and is non-decreasing on [0, 1]. -/
theorem linear_to_log_volume_spec :
    linear_to_log_volume 0 = 0 ∧ linear_to_log_volume 1 = 1 ∧
    (∀ x : ℝ, x ≤ 0 → linear_to_log_volume x = 0) ∧
    (∀ x : ℝ, 1 ≤ x → linear_to_log_volume x = 1) ∧
    (∀ x : ℝ, 0 < x → x < 1 → linear_to_log_volume x = x ^ (2.5 : ℝ)) ∧
    (∀ a b : ℝ, 0 ≤ a → a ≤ b → b ≤ 1 →
      linear_to_log_volume a ≤ linear_to_log_volume b) := by
  have hlo : ∀ x : ℝ, x ≤ 0 → linear_to_log_volume x = 0 := by
    intro x hx
    simp [linear_to_log_volume, if_pos hx]
  have hhi : ∀ x : ℝ, 1 ≤ x → linear_to_log_volume x = 1 := by
    intro x hx
    have hx0 : ¬ x ≤ 0 := by linarith
    simp [linear_to_log_volume, if_neg hx0, if_pos hx]
  have hmid : ∀ x : ℝ, 0 < x → x < 1 → linear_to_log_volume x = x ^ (2.5 : ℝ) := by
    intro x hx0 hx1
    have h0 : ¬ x ≤ 0 := not_le.mpr hx0
    have h1 : ¬ 1 ≤ x := not_le.mpr hx1
    simp [linear_to_log_volume, if_neg h0, if_neg h1]
  refine ⟨hlo 0 le_rfl, hhi 1 le_rfl, hlo, hhi, hmid, ?_⟩
  intro a b ha hab hb1
  by_cases ha0 : a ≤ 0
  · rw [hlo a ha0]
    by_cases hb0 : b ≤ 0
    · rw [hlo b hb0]
    · have hb0' : 0 < b := lt_of_not_le hb0
      by_cases hb1' : 1 ≤ b
      · rw [hhi b hb1']
        norm_num
      · rw [hmid b hb0' (lt_of_not_le hb1')]
        exact Real.rpow_nonneg hb0'.le _
  · have ha0' : 0 < a := lt_of_not_le ha0
    have hb0' : 0 < b := lt_of_lt_of_le ha0' hab
    by_cases ha1 : 1 ≤ a
    · have hb1' : 1 ≤ b := le_trans ha1 hab
      rw [hhi a ha1, hhi b hb1']
    · have ha1' : a < 1 := lt_of_not_le ha1
      rw [hmid a ha0' ha1']
      by_cases hb1' : 1 ≤ b
      · rw [hhi b hb1']
        exact Real.rpow_le_one ha0'.le ha1'.le (by norm_num)
      · rw [hmid b hb0' (lt_of_not_le hb1')]
        exact Real.rpow_le_rpow ha0'.le hab (by norm_num)

/-- Witness for C9 at concrete inputs. -/
theorem linear_to_log_volume_spec_witness :
    linear_to_log_volume 0 = 0 ∧ linear_to_log_volume 1 = 1 ∧
    linear_to_log_volume (-2) = 0 ∧ linear_to_log_volume 3 = 1 ∧
    linear_to_log_volume (1 / 2) ≤ linear_to_log_volume (3 / 4) := by
  obtain ⟨h0, h1, hlo, hhi, _, hmono⟩ := linear_to_log_volume_spec
  exact ⟨h0, h1, hlo (-2) (by norm_num), hhi 3 (by norm_num),
    hmono (1 / 2) (3 / 4) (by norm_num) (by norm_num) (by norm_num)⟩

/-- C5: `should_scrobble` is true exactly when the track is not yet marked
scrobbled, the position has reached `min(duration / 2, 240)` and strictly
exceeds 30 seconds; `mark_scrobbled` keeps it false through any later
position/duration updates, `set_song` clears the per-track flag, a 500-second
track fires at position 240 and not at 239, and a track whose position never
exceeds 30 seconds never fires. -/
theorem should_scrobble_spec :
    (∀ np : NowPlayingState,
      np.should_scrobble = true ↔
        np.scrobbled = false ∧ min (np.duration / 2) 240 ≤ np.position ∧
          30 < np.position) ∧
    (∀ np : NowPlayingState, np.mark_scrobbled.should_scrobble = false) ∧
    (∀ (np : NowPlayingState) (p d : Nat),
      ({ np.mark_scrobbled with position := p, duration := d }
        : NowPlayingState).should_scrobble = false) ∧
    (∀ (np : NowPlayingState) (song : Song), (np.set_song song).scrobbled = false) ∧
    (∀ np : NowPlayingState, np.scrobbled = false → np.duration = 500 →
      (np.position = 240 → np.should_scrobble = true) ∧
      (np.position = 239 → np.should_scrobble = false)) ∧
    (∀ np : NowPlayingState, np.position ≤ 30 → np.should_scrobble = false) := by
  have hiff : ∀ np : NowPlayingState,
      np.should_scrobble = true ↔
        np.scrobbled = false ∧ min (np.duration / 2) 240 ≤ np.position ∧
          30 < np.position := by
    intro np
    cases h : np.scrobbled <;>
      simp [NowPlayingState.should_scrobble, h]
  refine ⟨hiff, ?_, ?_, ?_, ?_, ?_⟩
  · intro np
    simp [NowPlayingState.should_scrobble, NowPlayingState.mark_scrobbled]
  · intro np p d
    simp [NowPlayingState.should_scrobble, NowPlayingState.mark_scrobbled]
  · intro np song
    simp [NowPlayingState.set_song]
  · intro np hs hd
    constructor
    · intro hp
      rw [hiff np]
      refine ⟨hs, ?_, ?_⟩ <;> omega
    · intro hp
      cases h : np.should_scrobble with
      | false => rfl
      | true =>
        rw [hiff np] at h
        rw [hd, hp] at h
        norm_num at h
  · intro np hp
    cases h : np.should_scrobble with
    | false => rfl
    | true =>
      rw [hiff np] at h
      omega

/-- Witness for C5 at a concrete state: a 500-second track at position 240,
not yet scrobbled, fires; after `mark_scrobbled` it no longer fires. -/
theorem should_scrobble_spec_witness :
    (({ duration := 500, position := 240 } : NowPlayingState).should_scrobble = true) ∧
    (({ duration := 500, position := 239 } : NowPlayingState).should_scrobble = false) ∧
    (({ duration := 500, position := 240 }
      : NowPlayingState).mark_scrobbled.should_scrobble = false) := by
  obtain ⟨_, hmark, _, _, h500, _⟩ := should_scrobble_spec
  exact ⟨(h500 { duration := 500, position := 240 } rfl rfl).1 rfl,
    (h500 { duration := 500, position := 239 } rfl rfl).2 rfl,
    hmark { duration := 500, position := 240 }⟩

/-- C10: with no cursor and a non-empty queue, `advance` restarts from the
top: the cursor becomes index 0 and the first song is returned (so after the
playing track is removed, which clears the cursor, the next advance restarts
from the top); with the cursor on the last index, `advance` returns `none`
and leaves the queue state unchanged.  The third conjunct is the composed
remove-then-advance scenario itself. -/
theorem advance_spec :
    (∀ q : QueueState, q.current_index = none → q.songs ≠ [] →
      q.advance.1.current_index = some 0 ∧ q.advance.2 = q.songs[0]?) ∧
    (∀ (q : QueueState) (i : Nat), q.current_index = some i →
      i + 1 = q.songs.length → q.advance.2 = none ∧ q.advance.1 = q) ∧
    (∀ (q : QueueState) (c : Nat), q.current_index = some c →
      c < q.songs.length → (q.remove c).songs ≠ [] →
      (q.remove c).advance.1.current_index = some 0 ∧
      (q.remove c).advance.2 = (q.remove c).songs[0]?) := by
  have hfresh : ∀ q : QueueState, q.current_index = none → q.songs ≠ [] →
      q.advance.1.current_index = some 0 ∧ q.advance.2 = q.songs[0]? := by
    intro q hc hne
    have hlen : q.songs.length ≠ 0 := by
      simpa [List.length_eq_zero] using hne
    simp [QueueState.advance, QueueState.next_song, hc, hlen, QueueState.current_song,
      List.getElem?_eq_getElem (Nat.pos_of_ne_zero hlen)]
  refine ⟨hfresh, ?_, ?_⟩
  · intro q i hc hlast
    have hlt : ¬ i + 1 < q.songs.length := by omega
    simp [QueueState.advance, QueueState.next_song, hc, hlt]
  · intro q c hc hlt hne
    apply hfresh
    · simp [QueueState.remove, hlt, hc]
    · exact hne

/-- Witness for C10 at a concrete queue. -/
theorem advance_spec_witness :
    ((({ songs := [{ id := "a", title := "a" }, { id := "b", title := "b" }] }
      : QueueState)).advance.1.current_index = some 0) ∧
    ((({ songs := [{ id := "a", title := "a" }], current_index := some 0 }
      : QueueState)).advance.2 = none) := by
  obtain ⟨h1, h2, _⟩ := advance_spec
  exact ⟨(h1 { songs := [{ id := "a", title := "a" }, { id := "b", title := "b" }] }
      rfl (by decide)).1,
    (h2 { songs := [{ id := "a", title := "a" }], current_index := some 0 } 0 rfl
      (by decide)).1⟩

theorem cursorOk_applyQueueOp (q : QueueState) (op : QueueOp)
    (h : q.cursorOk = true) : (applyQueueOp q op).cursorOk = true := by
  cases op with
  | add song =>
    cases hci : q.current_index with
    | none => simp [applyQueueOp, QueueState.add, QueueState.cursorOk, hci]
    | some i =>
      simp [QueueState.cursorOk, hci] at h
      simp [applyQueueOp, QueueState.add, QueueState.cursorOk, hci]
      omega
  | add_all songs =>
    cases hci : q.current_index with
    | none => simp [applyQueueOp, QueueState.add_all, QueueState.cursorOk, hci]
    | some i =>
      simp [QueueState.cursorOk, hci] at h
      simp [applyQueueOp, QueueState.add_all, QueueState.cursorOk, hci]
      omega
  | remove index =>
    by_cases hidx : index < q.songs.length
    · cases hci : q.current_index with
      | none => simp [applyQueueOp, QueueState.remove, QueueState.cursorOk, hidx, hci]
      | some i =>
        simp [QueueState.cursorOk, hci] at h
        by_cases hlt : index < i
        · have hne : ¬ index = i := by omega
          simp [applyQueueOp, QueueState.remove, QueueState.cursorOk, hidx, hci, hlt,
            List.length_eraseIdx, hne]
          omega
        · by_cases heq : index = i
          · subst heq
            simp [applyQueueOp, QueueState.remove, QueueState.cursorOk, hidx, hci]
          · simp [applyQueueOp, QueueState.remove, QueueState.cursorOk, hidx, hci, hlt, heq,
              List.length_eraseIdx]
            omega
    · simpa [applyQueueOp, QueueState.remove, hidx] using h
  | clear => simp [applyQueueOp, QueueState.clear, QueueState.cursorOk]
  | advance =>
    cases hci : q.current_index with
    | none =>
      by_cases hlen : q.songs.length ≠ 0
      · simp [applyQueueOp, QueueState.advance, QueueState.next_song, hci, hlen,
          QueueState.cursorOk]
        omega
      · simp [applyQueueOp, QueueState.advance, QueueState.next_song, hci, hlen,
          QueueState.cursorOk]
    | some i =>
      by_cases hnext : i + 1 < q.songs.length
      · simp [applyQueueOp, QueueState.advance, QueueState.next_song, hci, hnext,
          QueueState.cursorOk]
      · simpa [applyQueueOp, QueueState.advance, QueueState.next_song, hci, hnext,
          QueueState.cursorOk, hci] using h
  | go_back =>
    cases hci : q.current_index with
    | none =>
      simp [applyQueueOp, QueueState.go_back, QueueState.previous_song, hci,
        QueueState.cursorOk]
    | some i =>
      by_cases hprev : 0 < i ∧ i - 1 < q.songs.length
      · simp [applyQueueOp, QueueState.go_back, QueueState.previous_song, hci, hprev,
          QueueState.cursorOk]
      · simpa [applyQueueOp, QueueState.go_back, QueueState.previous_song, hci, hprev,
          QueueState.cursorOk, hci] using h
  | play_index index =>
    by_cases hidx : index < q.songs.length
    · simp [applyQueueOp, QueueState.play_index, hidx, QueueState.cursorOk]
    · simpa [applyQueueOp, QueueState.play_index, hidx] using h
  | shuffle perm =>
    by_cases hlen : q.songs.length ≤ 1
    · simpa [applyQueueOp, QueueState.shuffle, hlen] using h
    · cases hci : q.current_index with
      | none => simp [applyQueueOp, QueueState.shuffle, hlen, hci, QueueState.cursorOk]
      | some current_idx =>
        cases hcur : q.songs[current_idx]? with
        | none =>
          simpa [applyQueueOp, QueueState.shuffle, hlen, hci, hcur] using h
        | some current =>
          simp [applyQueueOp, QueueState.shuffle, hlen, hci, hcur, QueueState.cursorOk]

/-- C6: the cursor invariant (`current_index` is `none` or a valid index into
`songs`) is preserved by every sequence of queue operations, and `remove i`
clears the cursor when `i` equals it and shifts it down by one when `i` is
strictly below it. -/
theorem queue_cursor_invariant :
    (∀ (q : QueueState) (ops : List QueueOp), q.cursorOk = true →
      (applyQueueOps q ops).cursorOk = true) ∧
    (∀ (q : QueueState) (i : Nat), q.cursorOk = true → q.current_index = some i →
      (q.remove i).current_index = none) ∧
    (∀ (q : QueueState) (i c : Nat), q.current_index = some c → i < c →
      i < q.songs.length → (q.remove i).current_index = some (c - 1)) := by
  refine ⟨?_, ?_, ?_⟩
  · intro q ops h
    induction ops generalizing q with
    | nil => simpa [applyQueueOps] using h
    | cons op rest ih =>
      have hstep := cursorOk_applyQueueOp q op h
      simpa [applyQueueOps, List.foldl_cons] using ih _ hstep
  · intro q i h hci
    have hidx : i < q.songs.length := by
      simpa [QueueState.cursorOk, hci] using h
    simp [QueueState.remove, hidx, hci]
  · intro q i c hci hlt hidx
    simp [QueueState.remove, hidx, hci, hlt]

/-- Witness for C6 on a concrete queue and operation sequence (including a
shuffle with a concrete reordering and a removal below the cursor). -/
theorem queue_cursor_invariant_witness :
    (applyQueueOps
      { songs := [songA, songB, songC], current_index := some 1 }
      [QueueOp.advance, QueueOp.remove 0, QueueOp.shuffle List.reverse,
       QueueOp.add songD, QueueOp.go_back]).cursorOk = true ∧
    (({ songs := [songA, songB], current_index := some 1 }
      : QueueState).remove 1).current_index = none ∧
    (({ songs := [songA, songB], current_index := some 1 }
      : QueueState).remove 0).current_index = some 0 := by
  obtain ⟨h1, h2, h3⟩ := queue_cursor_invariant
  refine ⟨h1 _ _ (by decide), h2 _ 1 (by decide) rfl, h3 _ 0 1 rfl (by decide) (by decide)⟩

/-- C4: the `handle_track_ended` decision table.  With the player present and
the cursor on a valid index: under `One` the queue (hence the cursor) is
unchanged and the currently-queued track is resent; under `All` the cursor
advances, wrapping to index 0 when it was on the last index; under `Off` the
cursor advances when a next track exists (player state untouched) and
otherwise the application player state becomes `Stopped` with the cursor left
at the last index and nothing resent. -/
theorem handle_track_ended_spec :
    ∀ app : AppModel, app.has_player = true →
      (app.now_playing.repeat_mode = RepeatMode.One →
        app.handle_track_ended.1.queue = app.queue ∧
        app.handle_track_ended.2 = app.queue.current_song) ∧
      (∀ i : Nat, app.now_playing.repeat_mode = RepeatMode.All →
        app.queue.current_index = some i → i < app.queue.songs.length →
        (i + 1 < app.queue.songs.length →
          app.handle_track_ended.1.queue.current_index = some (i + 1) ∧
          app.handle_track_ended.2 = app.queue.songs[i + 1]?) ∧
        (i + 1 = app.queue.songs.length →
          app.handle_track_ended.1.queue.current_index = some 0 ∧
          app.handle_track_ended.2 = app.queue.songs[0]?)) ∧
      (∀ i : Nat, app.now_playing.repeat_mode = RepeatMode.Off →
        app.queue.current_index = some i → i < app.queue.songs.length →
        (i + 1 < app.queue.songs.length →
          app.handle_track_ended.1.queue.current_index = some (i + 1) ∧
          app.handle_track_ended.2 = app.queue.songs[i + 1]? ∧
          app.handle_track_ended.1.now_playing.state = app.now_playing.state) ∧
        (i + 1 = app.queue.songs.length →
          app.handle_track_ended.1.now_playing.state = PlayerState.Stopped ∧
          app.handle_track_ended.1.queue.current_index = some i ∧
          app.handle_track_ended.2 = none)) := by
  intro app hp
  refine ⟨?_, ?_, ?_⟩
  · intro hrep
    cases hcur : app.queue.current_song with
    | none => simp [AppModel.handle_track_ended, hrep, hcur]
    | some song =>
      simp [AppModel.handle_track_ended, hrep, hcur, AppModel.play_song, hp]
  · intro i hrep hci hvalid
    constructor
    · intro hnext
      have hget : app.queue.songs[i + 1]? = some (app.queue.songs.get ⟨i + 1, hnext⟩) :=
        List.getElem?_eq_getElem hnext
      simp [AppModel.handle_track_ended, hrep, QueueState.advance, QueueState.next_song,
        hci, hnext, QueueState.current_song, hget, AppModel.play_song, hp]
    · intro hlast
      have hnext : ¬ i + 1 < app.queue.songs.length := by omega
      have hpos : 0 < app.queue.songs.length := by omega
      have hget : app.queue.songs[0]? = some (app.queue.songs.get ⟨0, hpos⟩) :=
        List.getElem?_eq_getElem hpos
      simp [AppModel.handle_track_ended, hrep, QueueState.advance, QueueState.next_song,
        hci, hnext, QueueState.play_index, hpos, QueueState.current_song, hget,
        AppModel.play_song, hp]
  · intro i hrep hci hvalid
    constructor
    · intro hnext
      have hget : app.queue.songs[i + 1]? = some (app.queue.songs.get ⟨i + 1, hnext⟩) :=
        List.getElem?_eq_getElem hnext
      simp [AppModel.handle_track_ended, hrep, QueueState.advance, QueueState.next_song,
        hci, hnext, QueueState.current_song, hget, AppModel.play_song, hp,
        NowPlayingState.set_song]
    · intro hlast
      have hnext : ¬ i + 1 < app.queue.songs.length := by omega
      simp [AppModel.handle_track_ended, hrep, QueueState.advance, QueueState.next_song,
        hci, hnext]

/-- Witness for C4 on concrete queues in all three repeat modes. -/
theorem handle_track_ended_spec_witness :
    appOne.handle_track_ended.2 = some songA ∧
    appAll.handle_track_ended.1.queue.current_index = some 0 ∧
    appOff.handle_track_ended.1.now_playing.state = PlayerState.Stopped := by
  refine ⟨?_, ?_, ?_⟩
  · have h := (handle_track_ended_spec appOne rfl).1 rfl
    rw [h.2]
    decide
  · exact (((handle_track_ended_spec appAll rfl).2.1 1 rfl rfl (by decide)).2 (by decide)).1
  · exact (((handle_track_ended_spec appOff rfl).2.2 1 rfl rfl (by decide)).2 (by decide)).1

/-- C7 counterexample: moving the track at index 2 up by two places
(`direction = -2`, clamped target 0) with the cursor at 0.  The cursor 0 is
neither the moved index nor strictly between the old position 2 and the new
position 0, so the claim requires it to stay 0; the code shifts it to 1
(correctly, since the track the cursor pointed at now sits at index 1). -/
theorem move_queue_item_counterexample :
    (appMove.move_queue_item 2 (-2)).queue.current_index = some 1 ∧
    (appMove.move_queue_item 2 (-2)).queue.current_index ≠ some 0 := by
  decide

/-- C7 (amended): `move_queue_item index direction` moves the song at `index`
to the clamped target `new_index` and updates the cursor so that it follows
the moved track exactly when it equals the moved index; otherwise it shifts
by one in the direction opposite to the move exactly when it lies in the
half-open interval between the two positions that includes the target and
excludes the source (up-moves: `new_index ≤ cursor < index`; down-moves:
`index < cursor ≤ new_index`); in every other case it is unchanged. -/
theorem move_queue_item_spec :
    ∀ (app : AppModel) (index : Nat) (direction : Int) (s : Song) (new_index : Nat),
      new_index = (if direction < 0 then index - (-direction).toNat
                   else min (index + direction.toNat) (app.queue.songs.length - 1)) →
      new_index ≠ index → index < app.queue.songs.length →
      app.queue.songs[index]? = some s →
      (app.move_queue_item index direction).queue.songs =
        (app.queue.songs.eraseIdx index).insertIdx new_index s ∧
      (app.move_queue_item index direction).queue.songs[new_index]? = some s ∧
      ((app.queue.current_index = none →
        (app.move_queue_item index direction).queue.current_index = none) ∧
       ∀ c : Nat, app.queue.current_index = some c →
        (c = index →
          (app.move_queue_item index direction).queue.current_index = some new_index) ∧
        (new_index ≤ c → c < index →
          (app.move_queue_item index direction).queue.current_index = some (c + 1)) ∧
        (index < c → c ≤ new_index →
          (app.move_queue_item index direction).queue.current_index = some (c - 1)) ∧
        (c ≠ index → ¬ (new_index ≤ c ∧ c < index) → ¬ (index < c ∧ c ≤ new_index) →
          (app.move_queue_item index direction).queue.current_index = some c)) := by
  intro app index direction s new_index hni hne hidx hs
  have hdir_neg : direction < 0 → new_index < index := by
    intro hd
    rw [hni, if_pos hd] at hne ⊢
    omega
  have hdir_pos : ¬ direction < 0 → index < new_index := by
    intro hd
    rw [hni, if_neg hd] at hne ⊢
    omega
  have hmove : (app.move_queue_item index direction).queue =
      { app.queue with
        songs := (app.queue.songs.eraseIdx index).insertIdx new_index s
        current_index :=
          match app.queue.current_index with
          | some current =>
            if current = index then some new_index
            else if direction < 0 ∧ new_index ≤ current ∧ current < index then
              some (current + 1)
            else if 0 < direction ∧ index < current ∧ current ≤ new_index then
              some (current - 1)
            else some current
          | none => none
        selected := some new_index } := by
    rw [AppModel.move_queue_item, ← hni]
    rw [if_pos ⟨hne, hidx⟩, hs]
  have hlen : new_index ≤ (app.queue.songs.eraseIdx index).length := by
    have := List.length_eraseIdx_add_one hidx
    rcases lt_or_le direction 0 with hd | hd
    · have := hdir_neg hd
      omega
    · have hd' : ¬ direction < 0 := not_lt.mpr hd
      rw [hni, if_neg hd']
      omega
  refine ⟨by rw [hmove], ?_, ?_, ?_⟩
  · rw [hmove]
    have hlen2 : new_index < ((app.queue.songs.eraseIdx index).insertIdx new_index s).length := by
      rw [List.length_insertIdx _ _ hlen]
      omega
    rw [List.getElem?_eq_getElem hlen2]
    simp [List.getElem_insertIdx_self _ _ _ hlen]
  · intro hnone
    rw [hmove]
    simp [hnone]
  · intro c hc
    rw [hmove]
    simp only [hc]
    refine ⟨?_, ?_, ?_, ?_⟩
    · intro heq
      simp [heq]
    · intro hle hlt
      have hcne : ¬ c = index := by omega
      have hd : direction < 0 := by
        by_contra hd
        have := hdir_pos hd
        omega
      simp [hcne, hd, hle, hlt]
    · intro hlt hle
      have hcne : ¬ c = index := by omega
      have hd : ¬ direction < 0 := by
        intro hd
        have := hdir_neg hd
        omega
      have hd0 : 0 < direction := by
        rcases lt_or_le 0 direction with h | h
        · exact h
        · exfalso
          have hdz : direction = 0 := by omega
          rw [hni, hdz] at hne
          simp at hne
          omega
      simp [hcne, hd, hd0, hlt, hle]
    · intro hcne hnot1 hnot2
      have hup : ¬ (direction < 0 ∧ new_index ≤ c ∧ c < index) := by
        rintro ⟨hd, h1, h2⟩
        exact hnot1 ⟨h1, h2⟩
      have hdown : ¬ (0 < direction ∧ index < c ∧ c ≤ new_index) := by
        rintro ⟨hd, h1, h2⟩
        exact hnot2 ⟨h1, h2⟩
      simp [hcne, hup, hdown]

/-- Witness for C7 (amended) at a concrete move: [a, b, c], cursor 1, moving
index 0 down by two places (clamped target 2); the cursor lies in (0, 2] so
it shifts down to 0, and the moved song lands at index 2. -/
theorem move_queue_item_spec_witness :
    (({ queue := { songs := [songA, songB, songC], current_index := some 1 } }
      : AppModel).move_queue_item 0 2).queue.songs[2]? = some songA ∧
    (({ queue := { songs := [songA, songB, songC], current_index := some 1 } }
      : AppModel).move_queue_item 0 2).queue.current_index = some 0 := by
  have h := move_queue_item_spec
    { queue := { songs := [songA, songB, songC], current_index := some 1 } }
    0 2 songA 2 (by decide) (by decide) (by decide) (by decide)
  exact ⟨h.2.1, ((h.2.2.2 1 rfl).2.2.1 (by decide) (by decide))⟩

/-- C1 counterexample: a successful `Seek` processed while audio is loaded
and the actor is Playing ends the iteration still Playing but emits no
`StateChanged(Playing)` event (the source restores the flag and leaves the
sink playing without sending any event in the `was_playing` branch). -/
theorem seek_counterexample :
    (run_player_thread_step envOk (some (PlayerCommand.Seek 5000)) stPlaying).1.is_playing
      = true ∧
    PlayerEvent.StateChanged PlayerState.Playing ∉
      (run_player_thread_step envOk (some (PlayerCommand.Seek 5000)) stPlaying).2 := by
  decide

/-- C1 (amended): a `Seek` processed with audio loaded and a successful
source reconstruction preserves the pre-seek logical state: if the actor was
Paused it re-pauses the freshly started output and emits
`StateChanged(Paused)` as the iteration's only event; if it was Playing it
remains Playing with the output running and emits no `StateChanged` event at
all. -/
theorem seek_preserves_state :
    ∀ (env : PlayerEnv) (pos : Nat) (st : ActorState) (data : List Nat),
      st.current_audio_data = some data →
      env.decode data pos = Except.ok () →
      (st.is_playing = false →
        (run_player_thread_step env (some (PlayerCommand.Seek pos)) st).1.is_playing
          = false ∧
        (run_player_thread_step env (some (PlayerCommand.Seek pos)) st).1.sink.paused
          = true ∧
        (run_player_thread_step env (some (PlayerCommand.Seek pos)) st).2 =
          [PlayerEvent.StateChanged PlayerState.Paused]) ∧
      (st.is_playing = true →
        (run_player_thread_step env (some (PlayerCommand.Seek pos)) st).1.is_playing
          = true ∧
        (run_player_thread_step env (some (PlayerCommand.Seek pos)) st).1.sink.paused
          = false ∧
        ∀ s : PlayerState, PlayerEvent.StateChanged s ∉
          (run_player_thread_step env (some (PlayerCommand.Seek pos)) st).2) := by
  intro env pos st data hdata hdec
  constructor
  · intro hp
    simp [run_player_thread_step, play_audio_data, hdata, hdec, hp]
  · intro hp
    cases hdur : st.current_duration_ms <;>
      simp [run_player_thread_step, play_audio_data, hdata, hdec, hp, hdur]

/-- Witness for C1 (amended): a paused actor with loaded audio seeking under
the succeeding environment ends Paused having emitted exactly
`StateChanged(Paused)`. -/
theorem seek_preserves_state_witness :
    (run_player_thread_step envOk (some (PlayerCommand.Seek 7000))
      { stPlaying with is_playing := false, has_tick_ref := false,
                       sink := { has_source := true, paused := true } }).1.is_playing
      = false ∧
    (run_player_thread_step envOk (some (PlayerCommand.Seek 7000))
      { stPlaying with is_playing := false, has_tick_ref := false,
                       sink := { has_source := true, paused := true } }).2 =
      [PlayerEvent.StateChanged PlayerState.Paused] := by
  have h := (seek_preserves_state envOk 7000
    { stPlaying with is_playing := false, has_tick_ref := false,
                     sink := { has_source := true, paused := true } }
    [1] rfl rfl).1 rfl
  exact ⟨h.1, h.2.2⟩

/-- C2: an iteration that processes a `Seek` with audio loaded emits no
`TrackEnded` event (whether or not the source reconstruction succeeds): the
`is_seeking` guard set in the Seek branch suppresses the empty-sink
end-of-track check of that iteration; and every iteration ends with the
guard cleared, so the suppression covers exactly the stop/recreate
iteration. -/
theorem seek_no_track_ended :
    (∀ (env : PlayerEnv) (pos : Nat) (st : ActorState) (data : List Nat),
      st.current_audio_data = some data →
      PlayerEvent.TrackEnded ∉
        (run_player_thread_step env (some (PlayerCommand.Seek pos)) st).2) ∧
    (∀ (env : PlayerEnv) (cmd : Option PlayerCommand) (st : ActorState),
      (run_player_thread_step env cmd st).1.is_seeking = false) := by
  constructor
  · intro env pos st data hdata
    cases hdec : env.decode data pos with
    | error e =>
      cases hp : st.is_playing <;> cases htr : st.has_tick_ref <;>
        cases hdur : st.current_duration_ms <;>
        simp [run_player_thread_step, play_audio_data, hdata, hdec, hp, htr, hdur]
    | ok u =>
      cases u
      cases hp : st.is_playing <;> cases hdur : st.current_duration_ms <;>
        simp [run_player_thread_step, play_audio_data, hdata, hdec, hp, hdur]
  · intro env cmd st
    rcases cmd with _ | c
    · simp only [run_player_thread_step]
      repeat' split
      all_goals rfl
    · cases c <;> simp only [run_player_thread_step, play_audio_data] <;>
        (repeat' split) <;> rfl

/-- Witness for C2 at a concrete seek (decode failure case included via the
general theorem's lack of a success hypothesis). -/
theorem seek_no_track_ended_witness :
    PlayerEvent.TrackEnded ∉
      (run_player_thread_step envOk (some (PlayerCommand.Seek 5000)) stPlaying).2 ∧
    (run_player_thread_step envOk (some (PlayerCommand.Seek 5000))
      stPlaying).1.is_seeking = false := by
  exact ⟨seek_no_track_ended.1 envOk 5000 stPlaying [1] rfl,
    seek_no_track_ended.2 envOk (some (PlayerCommand.Seek 5000)) stPlaying⟩

/-- C3 (code bug): a `Play` whose fetch fails while a track is currently
playing emits the `Error` event but then, in the same iteration, the
end-of-track check sees the freshly recreated empty sink together with the
still-set `is_playing` flag and emits `TrackEnded`, flipping `is_playing` to
false — the failure does not leave the playback state unchanged and does
emit a `TrackEnded` as a consequence of the failure, contrary to the claim
(and to the error-propagation policy the `is_seeking` guard implements for
the analogous seek window). -/
theorem play_fetch_failure_emits_track_ended :
    (run_player_thread_step envFetchFail (some (PlayerCommand.Play "http://x/s" songA))
      stPlaying).2 =
      [PlayerEvent.Error "connection refused", PlayerEvent.TrackEnded] ∧
    (run_player_thread_step envFetchFail (some (PlayerCommand.Play "http://x/s" songA))
      stPlaying).1.is_playing = false ∧
    stPlaying.is_playing = true := by
  decide

/-- C8 counterexample: on two consecutive ticks with a completely unchanged
application state, the second synchronisation still sends
`SetCanGoNext true` (and `SetCanGoPrevious true`) — values equal to what was
published on the first tick — and the bridge's command loop forwards them to
the external transport unconditionally: the claimed diff-before-republish
does not happen for these properties (the remembered `MprisState` has no
fields for them, and the bridge loop performs no comparison at all). -/
theorem mpris_rebroadcast_counterexample :
    (sync_mpris_state appMpris (sync_mpris_state appMpris {}).1).1 =
      (sync_mpris_state appMpris {}).1 ∧
    MprisCommand.SetCanGoNext true ∈
      run_mpris_commands (sync_mpris_state appMpris {}).2 ∧
    MprisCommand.SetCanGoNext true ∈
      run_mpris_commands (sync_mpris_state appMpris (sync_mpris_state appMpris {}).1).2 := by
  decide

/-- C8 (amended): the outbound diffing lives on the application side, in
`sync_mpris_state`, and covers metadata (keyed by track id), playback
status, position, volume, shuffle and loop status — when the value equals
the remembered last-published one, no command for that property is sent that
tick; can-go-next and can-go-previous are sent unconditionally on every
tick, and the bridge's own command loop forwards every non-`Shutdown`
command to the external transport without any comparison. -/
theorem sync_mpris_diff_spec :
    ∀ (app : AppModel) (st : MprisState),
      (app.now_playing.current_song.map (fun s => s.id) = st.track_id →
        ∀ a b c d e f, MprisCommand.SetMetadata a b c d e f ∉
          (sync_mpris_state app st).2) ∧
      (app.now_playing.state = st.player_state →
        ∀ s, MprisCommand.SetPlaybackStatus s ∉ (sync_mpris_state app st).2) ∧
      (app.now_playing.position = st.position →
        ∀ p, MprisCommand.SetPosition p ∉ (sync_mpris_state app st).2) ∧
      (app.now_playing.volume = st.volume →
        ∀ v, MprisCommand.SetVolume v ∉ (sync_mpris_state app st).2) ∧
      (app.now_playing.shuffle = st.shuffle →
        ∀ b, MprisCommand.SetShuffle b ∉ (sync_mpris_state app st).2) ∧
      (app.now_playing.repeat_mode = st.repeat_mode →
        ∀ l, MprisCommand.SetLoopStatus l ∉ (sync_mpris_state app st).2) ∧
      MprisCommand.SetCanGoNext (!app.queue.songs.isEmpty) ∈
        (sync_mpris_state app st).2 ∧
      MprisCommand.SetCanGoPrevious (!app.queue.songs.isEmpty) ∈
        (sync_mpris_state app st).2 ∧
      (∀ cmds : List MprisCommand, MprisCommand.Shutdown ∉ cmds →
        run_mpris_commands cmds = cmds) := by
  intro app st
  obtain ⟨t1, t2, t3, t4, t5, t6, t7⟩ := sync_track_block_cmds app.now_playing st
  obtain ⟨u1, u2, u3, u4, u5, u6, u7⟩ :=
    sync_status_block_cmds app.now_playing (sync_track_block app.now_playing st).1
  obtain ⟨p1, p2, p3, p4, p5, p6, p7⟩ :=
    sync_position_block_cmds app.now_playing
      (sync_status_block app.now_playing (sync_track_block app.now_playing st).1).1
  obtain ⟨v1, v2, v3, v4, v5, v6, v7⟩ :=
    sync_volume_block_cmds app.now_playing
      (sync_position_block app.now_playing
        (sync_status_block app.now_playing (sync_track_block app.now_playing st).1).1).1
  obtain ⟨w1, w2, w3, w4, w5, w6, w7⟩ :=
    sync_shuffle_block_cmds app.now_playing
      (sync_volume_block app.now_playing
        (sync_position_block app.now_playing
          (sync_status_block app.now_playing
            (sync_track_block app.now_playing st).1).1).1).1
  obtain ⟨l1, l2, l3, l4, l5, l6, l7⟩ :=
    sync_loop_block_cmds app.now_playing
      (sync_shuffle_block app.now_playing
        (sync_volume_block app.now_playing
          (sync_position_block app.now_playing
            (sync_status_block app.now_playing
              (sync_track_block app.now_playing st).1).1).1).1).1
  refine ⟨?_, ?_, ?_, ?_, ?_, ?_, ?_, ?_, ?_⟩
  · intro h a b c d e f
    simp only [sync_mpris_state, List.append_assoc, List.mem_append, not_or]
    refine ⟨?_, ?_, ?_, ?_, ?_, ?_, by simp⟩
    · rw [t1 h]
      simp
    · intro hmem
      have := u2 _ hmem
      simp [MprisCommand.kind] at this
    · intro hmem
      have := p2 _ hmem
      simp [MprisCommand.kind] at this
    · intro hmem
      have := v2 _ hmem
      simp [MprisCommand.kind] at this
    · intro hmem
      have := w2 _ hmem
      simp [MprisCommand.kind] at this
    · intro hmem
      have := l2 _ hmem
      simp [MprisCommand.kind] at this
  · intro h s0
    simp only [sync_mpris_state, List.append_assoc, List.mem_append, not_or]
    refine ⟨?_, ?_, ?_, ?_, ?_, ?_, by simp⟩
    · intro hmem
      have := t2 _ hmem
      simp [MprisCommand.kind] at this
    · rw [u1 (by rw [t3, ← h])]
      simp
    · intro hmem
      have := p2 _ hmem
      simp [MprisCommand.kind] at this
    · intro hmem
      have := v2 _ hmem
      simp [MprisCommand.kind] at this
    · intro hmem
      have := w2 _ hmem
      simp [MprisCommand.kind] at this
    · intro hmem
      have := l2 _ hmem
      simp [MprisCommand.kind] at this
  · intro h p0
    simp only [sync_mpris_state, List.append_assoc, List.mem_append, not_or]
    refine ⟨?_, ?_, ?_, ?_, ?_, ?_, by simp⟩
    · intro hmem
      have := t2 _ hmem
      simp [MprisCommand.kind] at this
    · intro hmem
      have := u2 _ hmem
      simp [MprisCommand.kind] at this
    · rw [p1 (by rw [u4, t4, ← h])]
      simp
    · intro hmem
      have := v2 _ hmem
      simp [MprisCommand.kind] at this
    · intro hmem
      have := w2 _ hmem
      simp [MprisCommand.kind] at this
    · intro hmem
      have := l2 _ hmem
      simp [MprisCommand.kind] at this
  · intro h v0
    simp only [sync_mpris_state, List.append_assoc, List.mem_append, not_or]
    refine ⟨?_, ?_, ?_, ?_, ?_, ?_, by simp⟩
    · intro hmem
      have := t2 _ hmem
      simp [MprisCommand.kind] at this
    · intro hmem
      have := u2 _ hmem
      simp [MprisCommand.kind] at this
    · intro hmem
      have := p2 _ hmem
      simp [MprisCommand.kind] at this
    · rw [v1 (by rw [p5, u5, t5, ← h])]
      simp
    · intro hmem
      have := w2 _ hmem
      simp [MprisCommand.kind] at this
    · intro hmem
      have := l2 _ hmem
      simp [MprisCommand.kind] at this
  · intro h b0
    simp only [sync_mpris_state, List.append_assoc, List.mem_append, not_or]
    refine ⟨?_, ?_, ?_, ?_, ?_, ?_, by simp⟩
    · intro hmem
      have := t2 _ hmem
      simp [MprisCommand.kind] at this
    · intro hmem
      have := u2 _ hmem
      simp [MprisCommand.kind] at this
    · intro hmem
      have := p2 _ hmem
      simp [MprisCommand.kind] at this
    · intro hmem
      have := v2 _ hmem
      simp [MprisCommand.kind] at this
    · rw [w1 (by rw [v6, p6, u6, t6, ← h])]
      simp
    · intro hmem
      have := l2 _ hmem
      simp [MprisCommand.kind] at this
  · intro h l0
    simp only [sync_mpris_state, List.append_assoc, List.mem_append, not_or]
    refine ⟨?_, ?_, ?_, ?_, ?_, ?_, by simp⟩
    · intro hmem
      have := t2 _ hmem
      simp [MprisCommand.kind] at this
    · intro hmem
      have := u2 _ hmem
      simp [MprisCommand.kind] at this
    · intro hmem
      have := p2 _ hmem
      simp [MprisCommand.kind] at this
    · intro hmem
      have := v2 _ hmem
      simp [MprisCommand.kind] at this
    · intro hmem
      have := w2 _ hmem
      simp [MprisCommand.kind] at this
    · rw [l1 (by rw [w7, v7, p7, u7, t7, ← h])]
      simp
  · simp [sync_mpris_state, List.mem_append]
  · simp [sync_mpris_state, List.mem_append]
  · intro cmds hno
    induction cmds with
    | nil => rfl
    | cons c rest ih =>
      have hrest : MprisCommand.Shutdown ∉ rest := fun hm => hno (List.mem_cons_of_mem c hm)
      cases c <;> simp_all [run_mpris_commands]

/-- Witness for C8 (amended) at the concrete stable state: the second tick
sends no playback-status, metadata, position, volume, shuffle or loop-status
command, but does send the unchanged can-go-next flag again. -/
theorem sync_mpris_diff_spec_witness :
    (∀ s, MprisCommand.SetPlaybackStatus s ∉
      (sync_mpris_state appMpris (sync_mpris_state appMpris {}).1).2) ∧
    (∀ p, MprisCommand.SetPosition p ∉
      (sync_mpris_state appMpris (sync_mpris_state appMpris {}).1).2) ∧
    MprisCommand.SetCanGoNext (!appMpris.queue.songs.isEmpty) ∈
      (sync_mpris_state appMpris (sync_mpris_state appMpris {}).1).2 ∧
    run_mpris_commands
      (sync_mpris_state appMpris (sync_mpris_state appMpris {}).1).2 =
      (sync_mpris_state appMpris (sync_mpris_state appMpris {}).1).2 := by
  obtain ⟨_, hstatus, hpos, _, _, _, hnext, _, hfwd⟩ :=
    sync_mpris_diff_spec appMpris (sync_mpris_state appMpris {}).1
  exact ⟨hstatus (by decide), hpos (by decide), hnext, hfwd _ (by decide)⟩

end SubsonicTui
